import Mathlib

/-!
Shallow embedding of the visibility-gate subsystem of the family-graph
dashboard (source files `src/types/family.ts`, `src/lib/visibility-gate.ts`,
`src/lib/livo/filters.ts`), together with theorems settling the frozen
claims about it.

TypeScript string primitives (`String.prototype.startsWith`, `toLowerCase`,
regex substring tests) are modelled as structural recursion over the
character list of a `String`, so that every definition is executable by the
kernel.  Optional fields become `Option`; the optional boolean
`isAchievement` becomes a `Bool` defaulting to `false` (the source only ever
tests its truthiness).  The `synapseEvents` field of the TS `FamilyGraph` is
omitted: `applyVisibilityGate` neither reads nor returns it.
-/

-- ───────────────────────── Data model (src/types/family.ts) ──────────────

inductive RiskLevel where
  | low | medium | high
  deriving DecidableEq

inductive Visibility where
  | «private» | family | guarded | health_only
  deriving DecidableEq

inductive Role where
  | parent | child | grandparent | sibling | caregiver | other
  deriving DecidableEq

inductive Gender where
  | male | female
  deriving DecidableEq

inductive AdminLevel where
  | primary | secondary
  deriving DecidableEq

inductive PrefCategory where
  | food | activity | other
  deriving DecidableEq

inductive Sentiment where
  | likes | dislikes | avoids | loves
  deriving DecidableEq

inductive DocType where
  | recipe | schedule | note | list | project | financial
  deriving DecidableEq

inductive Severity where
  | low | moderate | critical
  deriving DecidableEq

/-- Variant-specific payload of a `FamilyNode`, one constructor per member of
the TS tagged union (the `type` tag of the source is the constructor). -/
inductive NodeData where
  | member (role : Role) (gender : Option Gender) (age : Option Nat)
      (healthTags : Option (List String)) (adminLevel : Option AdminLevel)
  | preference (category : PrefCategory) (sentiment : Sentiment)
  | device (platform : String) (os : Option String)
  | document (docType : DocType) (url : Option String)
  | health (condition : String) (severity : Option Severity)
  | house_rule (trigger : String) (condition : String) (action : String)
  deriving DecidableEq

/-- A node of the family graph: the shared `BaseNode` fields plus the
variant payload. -/
structure FamilyNode where
  id : String
  label : String
  riskLevel : Option RiskLevel
  visibility : Option Visibility
  isAchievement : Bool
  data : NodeData
  deriving DecidableEq

inductive EdgeRelation where
  | parent_of | child_of | spouse_of | sibling_of | grandparent_of
  | has_preference | has_health_condition | caregiver_of | owns_device
  | authored | related_to | installed_on | created_by | applies_to
  deriving DecidableEq

/-- A directed labeled edge between two node ids. -/
structure Edge where
  id : String
  source : String
  target : String
  relation : EdgeRelation
  label : Option String
  weight : Option Nat
  deriving DecidableEq

structure FamilyGraph where
  nodes : List FamilyNode
  edges : List Edge
  deriving DecidableEq

/-- True iff the node is of the `member` variant (TS: `node.type === "member"`). -/
def isMemberNode (node : FamilyNode) : Bool :=
  match node.data with
  | NodeData.member _ _ _ _ _ => true
  | _ => false

/-- Role of a member node, `none` for every other variant (TS: reading
`.role` off a node cast to `MemberNode` yields `undefined` unless the node
really is a member). -/
def nodeRole (node : FamilyNode) : Option Role :=
  match node.data with
  | NodeData.member role _ _ _ _ => some role
  | _ => none

-- ─────────────────── TS string primitives, kernel-executable ─────────────

/-- Model of `String.prototype.startsWith`: the characters of `p` are a
prefix of the characters of `s`. -/
def strStartsWith (s p : String) : Bool :=
  p.data.isPrefixOf s.data

-- ─────────────── Visibility gate (src/lib/visibility-gate.ts) ────────────

/-- Find the owner of a non-member node by walking edges: the first edge
touching `nodeId` whose other endpoint carries the reserved member prefix
`m-` yields that endpoint. -/
def findOwner (nodeId : String) : List Edge → Option String
  | [] => none
  | edge :: rest =>
    if edge.target == nodeId && strStartsWith edge.source "m-" then some edge.source
    else if edge.source == nodeId && strStartsWith edge.target "m-" then some edge.target
    else findOwner nodeId rest

/-- Check if viewerId is a parent of ownerId by looking at edges. -/
def isParentOf (viewerId ownerId : String) (edges : List Edge) : Bool :=
  edges.any fun e =>
    e.relation == EdgeRelation.parent_of && e.source == viewerId && e.target == ownerId

/-- Check if viewerId is a grandparent of ownerId. -/
def isGrandparentOf (viewerId ownerId : String) (edges : List Edge) : Bool :=
  edges.any fun e =>
    e.relation == EdgeRelation.grandparent_of && e.source == viewerId && e.target == ownerId

/-- Check if viewerId is a caregiver of ownerId. -/
def isCaregiverOf (viewerId ownerId : String) (edges : List Edge) : Bool :=
  edges.any fun e =>
    e.relation == EdgeRelation.caregiver_of && e.source == viewerId && e.target == ownerId

/-- Check if a document node is a financial document. -/
def isFinancialDoc (node : FamilyNode) : Bool :=
  match node.data with
  | NodeData.document docType _ => docType == DocType.financial
  | _ => false

/-- The `careTargets` list computed inside the health_only branch of the
gate: targets of all `caregiver_of` edges whose source is the viewer. -/
def careTargets (viewerId : String) (edges : List Edge) : List String :=
  (edges.filter fun e =>
    e.relation == EdgeRelation.caregiver_of && e.source == viewerId).map Edge.target

/-- Role of the viewer: role of the first node whose id is `viewerId`,
`none` when no such node exists or it is not a member (source lines 74-75). -/
def viewerRoleOf (graph : FamilyGraph) (viewerId : String) : Option Role :=
  (graph.nodes.find? fun n => n.id == viewerId).bind nodeRole

/-- The per-node disclosure decision: the body of the `graph.nodes.filter`
callback of `applyVisibilityGate`, with the sequence of early `return`s of
the source written as nested conditionals. -/
def nodeVisible (viewerRole : Option Role) (viewerId : String) (edges : List Edge)
    (node : FamilyNode) : Bool :=
  if node.isAchievement then true
  else if isMemberNode node then true
  else if node.visibility.getD Visibility.family == Visibility.family then true
  else if findOwner node.id edges == some viewerId then true
  else if node.visibility.getD Visibility.family == Visibility.health_only then
    match findOwner node.id edges with
    | none => false
    | some ownerId =>
      isParentOf viewerId ownerId edges ||
      isGrandparentOf viewerId ownerId edges ||
      isCaregiverOf viewerId ownerId edges ||
      (viewerRole == some Role.caregiver && (careTargets viewerId edges).contains ownerId)
  else if node.visibility.getD Visibility.family == Visibility.guarded then
    if viewerRole == some Role.caregiver then false
    else
      (match findOwner node.id edges with
       | some ownerId => isParentOf viewerId ownerId edges
       | none => false) ||
      (match findOwner node.id edges with
       | some ownerId => isGrandparentOf viewerId ownerId edges
       | none => false) ||
      (node.riskLevel == some RiskLevel.high &&
       match findOwner node.id edges with
       | some ownerId => isParentOf ownerId viewerId edges
       | none => false)
  else if node.visibility.getD Visibility.family == Visibility.«private» then
    node.riskLevel == some RiskLevel.high &&
    (match findOwner node.id edges with
     | some ownerId => isParentOf viewerId ownerId edges
     | none => false)
  else
    true

/-- The visibility gate: per-node filter, caregiver financial-document
post-filter, then recomputation of the edge set over disclosed node ids. -/
def applyVisibilityGate (graph : FamilyGraph) (viewerId : String) : FamilyGraph :=
  let viewerRole := viewerRoleOf graph viewerId
  let visibleNodes := graph.nodes.filter (nodeVisible viewerRole viewerId graph.edges)
  let filteredNodes := visibleNodes.filter fun node =>
    !(viewerRole == some Role.caregiver && isFinancialDoc node)
  let visibleIds := filteredNodes.map FamilyNode.id
  { nodes := filteredNodes,
    edges := graph.edges.filter fun e =>
      visibleIds.contains e.source && visibleIds.contains e.target }

/-- Node list of the gate output, as a closed form used by the proofs. -/
def gateNodes (graph : FamilyGraph) (viewerId : String) : List FamilyNode :=
  (graph.nodes.filter (nodeVisible (viewerRoleOf graph viewerId) viewerId graph.edges)).filter
    fun node => !(viewerRoleOf graph viewerId == some Role.caregiver && isFinancialDoc node)

/-- Edge list of the gate output, as a closed form used by the proofs. -/
def gateEdges (graph : FamilyGraph) (viewerId : String) : List Edge :=
  graph.edges.filter fun e =>
    ((gateNodes graph viewerId).map FamilyNode.id).contains e.source &&
    ((gateNodes graph viewerId).map FamilyNode.id).contains e.target

/-- Per-node decision of the variant of the gate with the redundant
caregiver-role clause of the health_only branch removed (claim C10). -/
def nodeVisibleNoCareClause (viewerRole : Option Role) (viewerId : String)
    (edges : List Edge) (node : FamilyNode) : Bool :=
  if node.isAchievement then true
  else if isMemberNode node then true
  else if node.visibility.getD Visibility.family == Visibility.family then true
  else if findOwner node.id edges == some viewerId then true
  else if node.visibility.getD Visibility.family == Visibility.health_only then
    match findOwner node.id edges with
    | none => false
    | some ownerId =>
      isParentOf viewerId ownerId edges ||
      isGrandparentOf viewerId ownerId edges ||
      isCaregiverOf viewerId ownerId edges
  else if node.visibility.getD Visibility.family == Visibility.guarded then
    if viewerRole == some Role.caregiver then false
    else
      (match findOwner node.id edges with
       | some ownerId => isParentOf viewerId ownerId edges
       | none => false) ||
      (match findOwner node.id edges with
       | some ownerId => isGrandparentOf viewerId ownerId edges
       | none => false) ||
      (node.riskLevel == some RiskLevel.high &&
       match findOwner node.id edges with
       | some ownerId => isParentOf ownerId viewerId edges
       | none => false)
  else if node.visibility.getD Visibility.family == Visibility.«private» then
    node.riskLevel == some RiskLevel.high &&
    (match findOwner node.id edges with
     | some ownerId => isParentOf viewerId ownerId edges
     | none => false)
  else
    true

/-- The gate with the redundant caregiver-role clause removed (claim C10). -/
def applyVisibilityGateNoCareClause (graph : FamilyGraph) (viewerId : String) : FamilyGraph :=
  let viewerRole := viewerRoleOf graph viewerId
  let visibleNodes := graph.nodes.filter (nodeVisibleNoCareClause viewerRole viewerId graph.edges)
  let filteredNodes := visibleNodes.filter fun node =>
    !(viewerRole == some Role.caregiver && isFinancialDoc node)
  let visibleIds := filteredNodes.map FamilyNode.id
  { nodes := filteredNodes,
    edges := graph.edges.filter fun e =>
      visibleIds.contains e.source && visibleIds.contains e.target }

-- ──────────────── Dietary aggregation filter (src/lib/livo/filters.ts) ───

/-- Category of a preference node, `none` for the other variants. -/
def nodeCategory (node : FamilyNode) : Option PrefCategory :=
  match node.data with
  | NodeData.preference category _ => some category
  | _ => none

/-- Caregiver member used as viewer in several scenarios. -/
def mCare : FamilyNode :=
  ⟨"m-care", "Nanny", none, none, false, NodeData.member Role.caregiver none none none none⟩

/-- Guarded financial document owned by the caregiver. -/
def docFin : FamilyNode :=
  ⟨"doc-fin", "Taxes", none, some Visibility.guarded, false,
    NodeData.document DocType.financial none⟩

/-- Financial document flagged as an achievement. -/
def docAch : FamilyNode :=
  ⟨"doc-ach", "Savings Trophy", none, some Visibility.«private», true,
    NodeData.document DocType.financial none⟩

/-- Guarded device owned by the caregiver. -/
def devG : FamilyNode :=
  ⟨"d-g", "Care Tablet", none, some Visibility.guarded, false,
    NodeData.device "tablet" none⟩

/-- Elder member owning a guarded device. -/
def mElder : FamilyNode :=
  ⟨"m-elder", "Grandma", none, none, false, NodeData.member Role.grandparent none none none none⟩

/-- Guarded device owned by the elder, not by the caregiver. -/
def devG2 : FamilyNode :=
  ⟨"d-g2", "Gold Fund", none, some Visibility.guarded, false,
    NodeData.device "fund" none⟩

/-- Graph with a caregiver viewer owning guarded and financial nodes. -/
def G1 : FamilyGraph :=
  ⟨[mCare, docFin, docAch, devG, mElder, devG2],
   [⟨"e1", "m-care", "doc-fin", EdgeRelation.authored, none, none⟩,
    ⟨"e2", "m-care", "d-g", EdgeRelation.owns_device, none, none⟩,
    ⟨"e3", "m-elder", "d-g2", EdgeRelation.owns_device, none, none⟩]⟩

/-- Child member. -/
def mC : FamilyNode :=
  ⟨"m-c", "Daughter", none, none, false, NodeData.member Role.child none none none none⟩

/-- Parent member. -/
def mP : FamilyNode :=
  ⟨"m-p", "Dad", none, none, false, NodeData.member Role.parent none none none none⟩

/-- Unrelated member. -/
def mU : FamilyNode :=
  ⟨"m-u", "Visitor", none, none, false, NodeData.member Role.other none none none none⟩

/-- Private high-risk achievement device owned by the child. -/
def devAch : FamilyNode :=
  ⟨"d-n", "Suspicious App Badge", some RiskLevel.high, some Visibility.«private», true,
    NodeData.device "phone" none⟩

/-- Graph for the private safety-override scenario with an achievement
node. -/
def G2 : FamilyGraph :=
  ⟨[mC, mP, mU, devAch],
   [⟨"e1", "m-c", "d-n", EdgeRelation.owns_device, none, none⟩,
    ⟨"e2", "m-p", "m-c", EdgeRelation.parent_of, none, none⟩]⟩

/-- Child member of the dangling-edge scenarios. -/
def mKid : FamilyNode :=
  ⟨"m-kid", "Kid", none, none, false, NodeData.member Role.child none none none none⟩

/-- health_only device owned by the child. -/
def devH : FamilyNode :=
  ⟨"d-1", "Glucose Monitor", none, some Visibility.health_only, false,
    NodeData.device "sensor" none⟩

/-- Graph with a dangling `parent_of` edge whose source "x" is no node. -/
def G3 : FamilyGraph :=
  ⟨[mKid, devH],
   [⟨"e1", "m-kid", "d-1", EdgeRelation.owns_device, none, none⟩,
    ⟨"e2", "x", "m-kid", EdgeRelation.parent_of, none, none⟩]⟩

/-- Parent viewer of the well-formed witness graph. -/
def mDad : FamilyNode :=
  ⟨"m-dad", "Dad", none, none, false, NodeData.member Role.parent none none none none⟩

/-- Sibling member with no parent_of edge. -/
def mSib : FamilyNode :=
  ⟨"m-sib", "Brother", none, none, false, NodeData.member Role.sibling none none none none⟩

/-- Private high-risk device owned by the kid. -/
def dPhone : FamilyNode :=
  ⟨"d-phone", "Phone", some RiskLevel.high, some Visibility.«private», false,
    NodeData.device "phone" none⟩

/-- Guarded financial document owned by the dad. -/
def docTax : FamilyNode :=
  ⟨"doc-tax", "Taxes 2024", none, some Visibility.guarded, false,
    NodeData.document DocType.financial none⟩

/-- health_only health record of the kid. -/
def hRec : FamilyNode :=
  ⟨"h-1", "Asthma", none, some Visibility.health_only, false,
    NodeData.health "Asthma" (some Severity.moderate)⟩

/-- Private achievement document. -/
def docTrophy : FamilyNode :=
  ⟨"doc-troph", "Math Trophy", none, some Visibility.«private», true,
    NodeData.document DocType.note none⟩

/-- The parent_of edge of the well-formed witness graph. -/
def eDadKid : Edge := ⟨"e1", "m-dad", "m-kid", EdgeRelation.parent_of, none, none⟩

/-- Well-formed family graph: unique ids, no dangling edges, every `m-`
prefixed id a member, used to witness the conditional theorems. -/
def G4 : FamilyGraph :=
  ⟨[mDad, mKid, mSib, dPhone, docTax, hRec, docTrophy],
   [eDadKid,
    ⟨"e2", "m-kid", "d-phone", EdgeRelation.owns_device, none, none⟩,
    ⟨"e3", "m-dad", "doc-tax", EdgeRelation.authored, none, none⟩,
    ⟨"e4", "m-kid", "h-1", EdgeRelation.has_health_condition, none, none⟩]⟩

theorem bool_eq_of_iff {a b : Bool} (h : a = true ↔ b = true) : a = b := by
  cases a <;> cases b <;> simp_all

theorem gate_nodes_def (g : FamilyGraph) (v : String) :
    (applyVisibilityGate g v).nodes = gateNodes g v := rfl

theorem mem_gateNodes {g : FamilyGraph} {v : String} {n : FamilyNode} :
    n ∈ gateNodes g v ↔
      n ∈ g.nodes ∧ nodeVisible (viewerRoleOf g v) v g.edges n = true ∧
        (viewerRoleOf g v == some Role.caregiver && isFinancialDoc n) = false := by
  simp [gateNodes, List.mem_filter, and_assoc]
  tauto

theorem contains_iff_mem {l : List String} {a : String} : l.contains a = true ↔ a ∈ l :=
  List.elem_iff

-- ─────────────────────────────── Claim C3 ────────────────────────────────

/-- C3: for every graph and every viewer whose member node has role
caregiver, no financial document node appears in the node list of
`applyVisibilityGate` — the post-filter removes them regardless of the
per-node visibility outcome. -/
theorem C3_caregiver_never_sees_financial (g : FamilyGraph) (v : String)
    (h : viewerRoleOf g v = some Role.caregiver) :
    ∀ n ∈ (applyVisibilityGate g v).nodes, isFinancialDoc n = false := by
  intro n hn
  rw [gate_nodes_def] at hn
  rcases mem_gateNodes.mp hn with ⟨-, -, hpost⟩
  rw [h] at hpost
  simpa using hpost

/-- Witness for C3 at the concrete graph `G1` with caregiver viewer. -/
theorem C3_witness :
    viewerRoleOf G1 "m-care" = some Role.caregiver ∧
      ∀ n ∈ (applyVisibilityGate G1 "m-care").nodes, isFinancialDoc n = false :=
  ⟨by decide, C3_caregiver_never_sees_financial G1 "m-care" (by decide)⟩

-- ─────────────────────────────── Claim C8 ────────────────────────────────

/-- C8: every edge of the gate output has both endpoints among the ids of
the output node list — the recomputed edge set never dangles. -/
theorem C8_edge_consistency (g : FamilyGraph) (v : String) (e : Edge)
    (h : e ∈ (applyVisibilityGate g v).edges) :
    (∃ n ∈ (applyVisibilityGate g v).nodes, n.id = e.source) ∧
      ∃ n ∈ (applyVisibilityGate g v).nodes, n.id = e.target := by
  have h' : e ∈ g.edges.filter (fun e =>
      ((gateNodes g v).map FamilyNode.id).contains e.source &&
      ((gateNodes g v).map FamilyNode.id).contains e.target) := h
  rcases List.mem_filter.mp h' with ⟨-, hc⟩
  rw [Bool.and_eq_true] at hc
  obtain ⟨h1, h2⟩ := hc
  rw [gate_nodes_def]
  constructor
  · rcases List.mem_map.mp (contains_iff_mem.mp h1) with ⟨n, hn, hid⟩
    exact ⟨n, hn, hid⟩
  · rcases List.mem_map.mp (contains_iff_mem.mp h2) with ⟨n, hn, hid⟩
    exact ⟨n, hn, hid⟩

/-- Witness for C8: the parent_of edge survives the gate on `G4` and both
its endpoints are disclosed. -/
theorem C8_witness :
    (∃ n ∈ (applyVisibilityGate G4 "m-dad").nodes, n.id = eDadKid.source) ∧
      ∃ n ∈ (applyVisibilityGate G4 "m-dad").nodes, n.id = eDadKid.target :=
  C8_edge_consistency G4 "m-dad" eDadKid (by decide)

-- ─────────────────────────── Counterexamples ─────────────────────────────

/-- C1 counterexample: an achievement node that is a financial document is
removed by the caregiver post-filter, so the achievement rule does not take
precedence over it. -/
theorem C1_cex :
    docAch ∈ G1.nodes ∧ docAch.isAchievement = true ∧
      docAch ∉ (applyVisibilityGate G1 "m-care").nodes := by decide

/-- C2 counterexample: a guarded node owned by the caregiver viewer is
disclosed to that caregiver, because the owner check precedes the guarded
branch. -/
theorem C2_cex :
    devG.visibility = some Visibility.guarded ∧
      viewerRoleOf G1 "m-care" = some Role.caregiver ∧
      findOwner devG.id G1.edges = some "m-care" ∧
      devG ∈ (applyVisibilityGate G1 "m-care").nodes := by decide

/-- C4 counterexample: a private high-risk node that is an achievement is
disclosed even to an unrelated viewer, so the negative half of the claim
fails as stated. -/
theorem C4_cex :
    devAch.visibility = some Visibility.«private» ∧
      devAch.riskLevel = some RiskLevel.high ∧
      findOwner devAch.id G2.edges = some "m-c" ∧
      isParentOf "m-p" "m-c" G2.edges = true ∧
      findOwner devAch.id G2.edges ≠ some "m-u" ∧
      isParentOf "m-u" "m-c" G2.edges = false ∧
      devAch ∈ (applyVisibilityGate G2 "m-u").nodes := by decide

/-- C5 counterexample: the gate is not idempotent on a graph with a
dangling parent_of edge whose source is the viewer id "x": the edge is
dropped by the first pass, so the health_only node it justified disappears
in the second pass. -/
theorem C5_cex :
    applyVisibilityGate (applyVisibilityGate G3 "x") "x" ≠ applyVisibilityGate G3 "x" := by
  decide

/-- C6 counterexample: a financial document owned by a caregiver-role
member is hidden from its own owner by the post-filter. -/
theorem C6_cex :
    isMemberNode docFin = false ∧
      findOwner docFin.id G1.edges = some "m-care" ∧
      docFin ∉ (applyVisibilityGate G1 "m-care").nodes := by decide

/-- C7 counterexample: for a viewer id "x" that is no node, a dangling
parent_of edge with source "x" still fires the health_only branch, so the
output is not limited to achievement, member and family-visible nodes. -/
theorem C7_cex :
    (∀ n ∈ G3.nodes, n.id ≠ "x") ∧
      devH ∈ (applyVisibilityGate G3 "x").nodes ∧
      devH.isAchievement = false ∧ isMemberNode devH = false ∧
      devH.visibility.getD Visibility.family ≠ Visibility.family := by decide

theorem nodeVisible_of_achievement {role : Option Role} {v : String} {es : List Edge}
    {n : FamilyNode} (h : n.isAchievement = true) : nodeVisible role v es n = true := by
  simp [nodeVisible, h]

theorem nodeVisible_of_owner {role : Option Role} {v : String} {es : List Edge}
    {n : FamilyNode} (h : findOwner n.id es = some v) : nodeVisible role v es n = true := by
  unfold nodeVisible
  rw [h]
  simp

theorem post_filter_pass {g : FamilyGraph} {v : String} {n : FamilyNode}
    (h : ¬(viewerRoleOf g v = some Role.caregiver ∧ isFinancialDoc n = true)) :
    (viewerRoleOf g v == some Role.caregiver && isFinancialDoc n) = false := by
  cases hr : (viewerRoleOf g v == some Role.caregiver) <;>
    cases hf : isFinancialDoc n <;> simp_all [beq_iff_eq]

-- ─────────────────────────────── Claim C1 ────────────────────────────────

/-- C1 (amended): an achievement node is always disclosed unless the viewer
has role caregiver and the node is a financial document, in which case the
caregiver financial post-filter removes it even though it is an
achievement. -/
theorem C1_achievement_disclosure (g : FamilyGraph) (v : String) (n : FamilyNode)
    (hmem : n ∈ g.nodes) (hach : n.isAchievement = true)
    (hnc : ¬(viewerRoleOf g v = some Role.caregiver ∧ isFinancialDoc n = true)) :
    n ∈ (applyVisibilityGate g v).nodes := by
  rw [gate_nodes_def]
  exact mem_gateNodes.mpr ⟨hmem, nodeVisible_of_achievement hach, post_filter_pass hnc⟩

/-- Witness for C1 (amended): the private achievement trophy is disclosed
to the child viewer of `G4`. -/
theorem C1_witness :
    docTrophy ∈ G4.nodes ∧ docTrophy.isAchievement = true ∧
      docTrophy ∈ (applyVisibilityGate G4 "m-kid").nodes :=
  ⟨by decide, by decide,
    C1_achievement_disclosure G4 "m-kid" docTrophy (by decide) (by decide) (by decide)⟩

-- ─────────────────────────────── Claim C2 ────────────────────────────────

theorem nodeVisible_guarded_caregiver {role : Option Role} {v : String} {es : List Edge}
    {n : FamilyNode} (hrole : role = some Role.caregiver)
    (hvis : n.visibility = some Visibility.guarded) (hach : n.isAchievement = false)
    (hm : isMemberNode n = false) (how : findOwner n.id es ≠ some v) :
    nodeVisible role v es n = false := by
  unfold nodeVisible
  rw [hach, hm, hvis, hrole, beq_false_of_ne how]
  simp

/-- C2 (amended): a guarded node is never disclosed to a caregiver-role
viewer provided the node is not an achievement, not a member node, and the
viewer is not its resolved owner — the three preceding checks that override
the guarded caregiver exclusion in the source. -/
theorem C2_guarded_caregiver_exclusion (g : FamilyGraph) (v : String) (n : FamilyNode)
    (hrole : viewerRoleOf g v = some Role.caregiver)
    (hvis : n.visibility = some Visibility.guarded)
    (hach : n.isAchievement = false) (hm : isMemberNode n = false)
    (how : findOwner n.id g.edges ≠ some v) :
    n ∉ (applyVisibilityGate g v).nodes := by
  rw [gate_nodes_def]
  intro hin
  rcases mem_gateNodes.mp hin with ⟨-, hviz, -⟩
  rw [nodeVisible_guarded_caregiver hrole hvis hach hm how] at hviz
  exact Bool.false_ne_true hviz

/-- Witness for C2 (amended): the elder-owned guarded fund is hidden from
the caregiver viewer of `G1`. -/
theorem C2_witness :
    viewerRoleOf G1 "m-care" = some Role.caregiver ∧
      devG2.visibility = some Visibility.guarded ∧
      findOwner devG2.id G1.edges ≠ some "m-care" ∧
      devG2 ∉ (applyVisibilityGate G1 "m-care").nodes :=
  ⟨by decide, by decide, by decide,
    C2_guarded_caregiver_exclusion G1 "m-care" devG2 (by decide) (by decide) (by decide)
      (by decide) (by decide)⟩

-- ─────────────────────────────── Claim C6 ────────────────────────────────

/-- C6 (amended): a non-member node with resolved owner o is disclosed to o,
unless o resolves to a caregiver-role viewer and the node is a financial
document, in which case the post-filter removes it even from its owner. -/
theorem C6_owner_self_visibility (g : FamilyGraph) (o : String) (n : FamilyNode)
    (hmem : n ∈ g.nodes) (_hnm : isMemberNode n = false)
    (how : findOwner n.id g.edges = some o)
    (hnc : ¬(viewerRoleOf g o = some Role.caregiver ∧ isFinancialDoc n = true)) :
    n ∈ (applyVisibilityGate g o).nodes := by
  rw [gate_nodes_def]
  exact mem_gateNodes.mpr ⟨hmem, nodeVisible_of_owner how, post_filter_pass hnc⟩

/-- Witness for C6 (amended): the kid-owned private phone is disclosed to
the kid. -/
theorem C6_witness :
    isMemberNode dPhone = false ∧
      findOwner dPhone.id G4.edges = some "m-kid" ∧
      dPhone ∈ (applyVisibilityGate G4 "m-kid").nodes :=
  ⟨by decide, by decide,
    C6_owner_self_visibility G4 "m-kid" dPhone (by decide) (by decide) (by decide) (by decide)⟩

-- ─────────────────────────────── Claim C4 ────────────────────────────────

theorem nodeVisible_private_safety {role : Option Role} {v : String} {es : List Edge}
    {n : FamilyNode} {c : String}
    (hvis : n.visibility = some Visibility.«private»)
    (hrisk : n.riskLevel = some RiskLevel.high)
    (how : findOwner n.id es = some c) (hpar : isParentOf v c es = true) :
    nodeVisible role v es n = true := by
  unfold nodeVisible
  rw [hvis, how, hrisk]
  cases hA : n.isAchievement <;> cases hM : isMemberNode n <;>
    cases he : (some c == some v) <;> simp [he, hpar, beq_iff_eq]

theorem nodeVisible_private_hidden {role : Option Role} {v : String} {es : List Edge}
    {n : FamilyNode} {c : String}
    (hvis : n.visibility = some Visibility.«private»)
    (hach : n.isAchievement = false) (hm : isMemberNode n = false)
    (how : findOwner n.id es = some c) (hne : c ≠ v)
    (hpar : isParentOf v c es = false) :
    nodeVisible role v es n = false := by
  unfold nodeVisible
  rw [hach, hm, hvis, how]
  have hcv : (some c == some v) = false := beq_false_of_ne (by simpa using hne)
  simp [hcv, hpar, beq_iff_eq]

/-- C4 (amended): a private high-risk node owned by c is disclosed to any
viewer p with a parent_of edge p→c (unless p is a caregiver and the node a
financial document), and hidden from an unrelated viewer u — provided the
node is not an achievement and not a member node, the two checks that
disclose it to everyone. -/
theorem C4_private_safety_override (g : FamilyGraph) (n : FamilyNode) (c p u : String)
    (hvis : n.visibility = some Visibility.«private»)
    (hrisk : n.riskLevel = some RiskLevel.high)
    (hmem : n ∈ g.nodes)
    (how : findOwner n.id g.edges = some c)
    (hpar : isParentOf p c g.edges = true)
    (hpnc : ¬(viewerRoleOf g p = some Role.caregiver ∧ isFinancialDoc n = true))
    (hach : n.isAchievement = false) (hm : isMemberNode n = false)
    (hcu : c ≠ u) (hupar : isParentOf u c g.edges = false) :
    n ∈ (applyVisibilityGate g p).nodes ∧ n ∉ (applyVisibilityGate g u).nodes := by
  constructor
  · rw [gate_nodes_def]
    exact mem_gateNodes.mpr
      ⟨hmem, nodeVisible_private_safety hvis hrisk how hpar, post_filter_pass hpnc⟩
  · rw [gate_nodes_def]
    intro hin
    rcases mem_gateNodes.mp hin with ⟨-, hviz, -⟩
    rw [nodeVisible_private_hidden hvis hach hm how hcu hupar] at hviz
    exact Bool.false_ne_true hviz

/-- Witness for C4 (amended): the kid-owned private high-risk phone is
disclosed to the dad and hidden from the sibling. -/
theorem C4_witness :
    isParentOf "m-dad" "m-kid" G4.edges = true ∧
      isParentOf "m-sib" "m-kid" G4.edges = false ∧
      dPhone ∈ (applyVisibilityGate G4 "m-dad").nodes ∧
      dPhone ∉ (applyVisibilityGate G4 "m-sib").nodes := by
  have h := C4_private_safety_override G4 dPhone "m-kid" "m-dad" "m-sib" (by decide)
    (by decide) (by decide) (by decide) (by decide) (by decide) (by decide) (by decide)
    (by decide) (by decide)
  exact ⟨by decide, by decide, h.1, h.2⟩

theorem gate_eq (g : FamilyGraph) (v : String) :
    applyVisibilityGate g v = ⟨gateNodes g v, gateEdges g v⟩ := rfl

theorem gate_edges_def (g : FamilyGraph) (v : String) :
    (applyVisibilityGate g v).edges = gateEdges g v := rfl

theorem isFinancialDoc_of_member {n : FamilyNode} (h : isMemberNode n = true) :
    isFinancialDoc n = false := by
  unfold isMemberNode at h
  unfold isFinancialDoc
  cases hd : n.data <;> simp_all

theorem nodeVisible_of_member {role : Option Role} {v : String} {es : List Edge}
    {n : FamilyNode} (h : isMemberNode n = true) : nodeVisible role v es n = true := by
  unfold nodeVisible
  cases hA : n.isAchievement <;> simp [h]

theorem member_mem_gateNodes {g : FamilyGraph} {v : String} {n : FamilyNode}
    (hm : n ∈ g.nodes) (hmem : isMemberNode n = true) : n ∈ gateNodes g v :=
  mem_gateNodes.mpr ⟨hm, nodeVisible_of_member hmem,
    by rw [isFinancialDoc_of_member hmem]; simp⟩

theorem careTargets_contains_eq (v o : String) (es : List Edge) :
    (careTargets v es).contains o = isCaregiverOf v o es := by
  unfold careTargets isCaregiverOf
  apply bool_eq_of_iff
  rw [contains_iff_mem, List.any_eq_true]
  constructor
  · intro h
    rcases List.mem_map.mp h with ⟨e, he, het⟩
    rcases List.mem_filter.mp he with ⟨hes, hpe⟩
    refine ⟨e, hes, ?_⟩
    rw [Bool.and_eq_true]
    exact ⟨hpe, beq_iff_eq.mpr het⟩
  · rintro ⟨e, hes, hp⟩
    rw [Bool.and_eq_true] at hp
    exact List.mem_map.mpr ⟨e, List.mem_filter.mpr ⟨hes, hp.1⟩, beq_iff_eq.mp hp.2⟩

theorem nodeVisible_noCare_eq (role : Option Role) (v : String) (es : List Edge)
    (n : FamilyNode) : nodeVisibleNoCareClause role v es n = nodeVisible role v es n := by
  unfold nodeVisible nodeVisibleNoCareClause
  cases ho : findOwner n.id es with
  | none => simp [ho]
  | some o =>
    simp only [ho]
    rw [careTargets_contains_eq]
    cases hc : isCaregiverOf v o es <;> simp [hc]

theorem nodeVisible_noCare_funext : nodeVisibleNoCareClause = nodeVisible := by
  funext role v es n
  exact nodeVisible_noCare_eq role v es n

-- ─────────────────────────────── Claim C10 ───────────────────────────────

/-- C10: the caregiver-role clause in the health_only branch (collecting the
viewer caregiver_of targets and testing the owner against them) is
redundant: it is implied by the preceding isCaregiverOf check, and the gate
with the clause removed is extensionally equal to the gate as written. -/
theorem C10_careClause_redundant (g : FamilyGraph) (v : String) :
    applyVisibilityGateNoCareClause g v = applyVisibilityGate g v := by
  unfold applyVisibilityGate applyVisibilityGateNoCareClause
  rw [nodeVisible_noCare_funext]

theorem findOwner_spec (x : String) (es : List Edge) (o : String)
    (h : findOwner x es = some o) :
    strStartsWith o "m-" = true ∧ ∃ e ∈ es, o = e.source ∨ o = e.target := by
  induction es with
  | nil => exact absurd h (by simp [findOwner])
  | cons e es ih =>
    rw [findOwner] at h
    split at h
    case isTrue hc =>
      injection h with ho
      rw [Bool.and_eq_true] at hc
      exact ⟨ho ▸ hc.2, e, List.mem_cons_self _ _, Or.inl ho.symm⟩
    case isFalse hc =>
      split at h
      case isTrue hc2 =>
        injection h with ho
        rw [Bool.and_eq_true] at hc2
        exact ⟨ho ▸ hc2.2, e, List.mem_cons_self _ _, Or.inr ho.symm⟩
      case isFalse hc2 =>
        rcases ih h with ⟨hpre, e', he', hor⟩
        exact ⟨hpre, e', List.mem_cons_of_mem _ he', hor⟩

theorem viewerRoleOf_eq_none {g : FamilyGraph} {v : String}
    (h : ∀ n ∈ g.nodes, n.id ≠ v) : viewerRoleOf g v = none := by
  unfold viewerRoleOf
  rw [List.find?_eq_none.mpr]
  · rfl
  · intro n hn
    simp only [beq_iff_eq]
    exact h n hn

theorem any_rel_false_of_no_source {r : EdgeRelation} {a b : String} {es : List Edge}
    (h : ∀ e ∈ es, e.source ≠ a) :
    (es.any fun e => e.relation == r && e.source == a && e.target == b) = false := by
  cases ha : es.any fun e => e.relation == r && e.source == a && e.target == b
  · rfl
  · rcases List.any_eq_true.mp ha with ⟨e, he, hp⟩
    rw [Bool.and_eq_true, Bool.and_eq_true] at hp
    exact absurd (beq_iff_eq.mp hp.1.2) (h e he)

theorem any_rel_false_of_no_target {r : EdgeRelation} {a b : String} {es : List Edge}
    (h : ∀ e ∈ es, e.target ≠ b) :
    (es.any fun e => e.relation == r && e.source == a && e.target == b) = false := by
  cases ha : es.any fun e => e.relation == r && e.source == a && e.target == b
  · rfl
  · rcases List.any_eq_true.mp ha with ⟨e, he, hp⟩
    rw [Bool.and_eq_true] at hp
    exact absurd (beq_iff_eq.mp hp.2) (h e he)

theorem nodeVisible_absent_viewer {v : String} {es : List Edge} {n : FamilyNode}
    (he : ∀ e ∈ es, e.source ≠ v ∧ e.target ≠ v) :
    nodeVisible none v es n =
      (n.isAchievement || isMemberNode n ||
        (n.visibility.getD Visibility.family == Visibility.family)) := by
  have hNoneBeq : ((none : Option Role) == some Role.caregiver) = false := by decide
  have howner : ∀ o, findOwner n.id es = some o →
      (some o == some v) = false ∧ isParentOf v o es = false ∧
      isGrandparentOf v o es = false ∧ isCaregiverOf v o es = false ∧
      isParentOf o v es = false := by
    intro o ho
    have hov : o ≠ v := by
      rcases findOwner_spec _ _ _ ho with ⟨-, e, hee, hor⟩
      rcases hor with h1 | h1
      · exact h1 ▸ (he e hee).1
      · exact h1 ▸ (he e hee).2
    refine ⟨beq_false_of_ne (by simpa using hov),
      any_rel_false_of_no_source (fun e hee => (he e hee).1),
      any_rel_false_of_no_source (fun e hee => (he e hee).1),
      any_rel_false_of_no_source (fun e hee => (he e hee).1),
      any_rel_false_of_no_target (fun e hee => (he e hee).2)⟩
  unfold nodeVisible
  cases hA : n.isAchievement
  · cases hM : isMemberNode n
    · cases hV : n.visibility.getD Visibility.family
      case family => simp [hV]
      case «private» =>
        cases ho : findOwner n.id es with
        | none => simp [hV, ho, hNoneBeq, hM]
        | some o =>
          obtain ⟨h0, h1, h2, h3, h4⟩ := howner o ho
          simp [hV, ho, h0, h1, h2, h3, h4, hNoneBeq, hM]
      case guarded =>
        cases ho : findOwner n.id es with
        | none => simp [hV, ho, hNoneBeq, hM]
        | some o =>
          obtain ⟨h0, h1, h2, h3, h4⟩ := howner o ho
          simp [hV, ho, h0, h1, h2, h3, h4, hNoneBeq, hM]
      case health_only =>
        cases ho : findOwner n.id es with
        | none => simp [hV, ho, hNoneBeq, hM]
        | some o =>
          obtain ⟨h0, h1, h2, h3, h4⟩ := howner o ho
          simp [hV, ho, h0, h1, h2, h3, h4, hNoneBeq, hM]
    · simp [hM, hA]
  · simp [hA]

-- ─────────────────────────────── Claim C7 ────────────────────────────────

/-- C7 (amended): for a viewer id that is neither a node id nor an endpoint
of any edge, the gate never fails and its node list is exactly the nodes
that are achievements, members, or effectively family-visible.  (The claim
as frozen requires only that the viewer id is no node id; a dangling edge
naming the viewer id can still fire the role-gated branches, see the
counterexample.) -/
theorem C7_absent_viewer (g : FamilyGraph) (v : String)
    (hn : ∀ n ∈ g.nodes, n.id ≠ v)
    (he : ∀ e ∈ g.edges, e.source ≠ v ∧ e.target ≠ v) :
    (applyVisibilityGate g v).nodes =
      g.nodes.filter fun n =>
        n.isAchievement || isMemberNode n ||
          (n.visibility.getD Visibility.family == Visibility.family) := by
  have hNoneBeq : ((none : Option Role) == some Role.caregiver) = false := by decide
  rw [gate_nodes_def]
  unfold gateNodes
  rw [viewerRoleOf_eq_none hn, List.filter_filter]
  apply List.filter_congr
  intro n hmem
  rw [nodeVisible_absent_viewer he]
  simp [hNoneBeq]

/-- Witness for C7 (amended): gating `G4` for the absent viewer id "zz"
returns exactly the achievement, member and family-visible nodes. -/
theorem C7_witness :
    (∀ n ∈ G4.nodes, n.id ≠ "zz") ∧
      (applyVisibilityGate G4 "zz").nodes =
        G4.nodes.filter (fun n =>
          n.isAchievement || isMemberNode n ||
            (n.visibility.getD Visibility.family == Visibility.family)) :=
  ⟨by decide, C7_absent_viewer G4 "zz" (by decide) (by decide)⟩

theorem any_filter_eq {α : Type} {p q : α → Bool} {es : List α}
    (h : ∀ e ∈ es, p e = true → q e = true) :
    (es.filter q).any p = es.any p := by
  apply bool_eq_of_iff
  rw [List.any_eq_true, List.any_eq_true]
  constructor
  · rintro ⟨e, he, hp⟩
    exact ⟨e, (List.filter_sublist es).subset he, hp⟩
  · rintro ⟨e, he, hp⟩
    exact ⟨e, List.mem_filter.mpr ⟨he, h e he hp⟩, hp⟩

theorem findOwner_filter (x : String) (q : Edge → Bool) (es : List Edge)
    (h : ∀ e ∈ es, ((e.target == x && strStartsWith e.source "m-") ||
        (e.source == x && strStartsWith e.target "m-")) = true → q e = true) :
    findOwner x (es.filter q) = findOwner x es := by
  induction es with
  | nil => rfl
  | cons e es ih =>
    have ih' := ih (fun e' he' hrel => h e' (List.mem_cons_of_mem _ he') hrel)
    cases h1 : (e.target == x && strStartsWith e.source "m-") with
    | true =>
      have hq : q e = true := h e (List.mem_cons_self _ _) (by rw [h1, Bool.true_or])
      simp [List.filter_cons, hq, findOwner, h1]
    | false =>
      cases h2 : (e.source == x && strStartsWith e.target "m-") with
      | true =>
        have hq : q e = true := h e (List.mem_cons_self _ _) (by rw [h2, Bool.or_true])
        simp [List.filter_cons, hq, findOwner, h1, h2]
      | false =>
        cases hq : q e with
        | true =>
          simp only [List.filter_cons, hq, if_true, findOwner, h1, h2]
          simpa using ih'
        | false =>
          simp only [List.filter_cons, hq, findOwner, h1, h2]
          simp only [Bool.false_eq_true, if_false]
          rw [ih']

theorem find?_eq_of_unique {l : List FamilyNode} {m : FamilyNode} {v : String}
    (hu : l.Pairwise fun a b => a.id ≠ b.id) (hm : m ∈ l) (hid : m.id = v) :
    l.find? (fun n => n.id == v) = some m := by
  induction l with
  | nil => cases hm
  | cons a l ih =>
    rcases List.mem_cons.mp hm with rfl | hm'
    · rw [List.find?_cons_of_pos]
      exact beq_iff_eq.mpr hid
    · have ha : (a.id == v) = false := by
        rw [beq_eq_false_iff_ne]
        intro hav
        exact (List.pairwise_cons.mp hu).1 m hm' (hav.trans hid.symm)
      rw [List.find?_cons_of_neg]
      · exact ih (List.pairwise_cons.mp hu).2 hm'
      · simp [ha]

theorem nodeVisible_env_eq (role : Option Role) (v : String) (es es' : List Edge)
    (n : FamilyNode)
    (hOwn : findOwner n.id es' = findOwner n.id es)
    (hPred : ∀ o, findOwner n.id es = some o →
      isParentOf v o es' = isParentOf v o es ∧
      isGrandparentOf v o es' = isGrandparentOf v o es ∧
      isCaregiverOf v o es' = isCaregiverOf v o es ∧
      isParentOf o v es' = isParentOf o v es) :
    nodeVisible role v es' n = nodeVisible role v es n := by
  unfold nodeVisible
  rw [hOwn]
  cases ho : findOwner n.id es with
  | none => simp [ho]
  | some o =>
    obtain ⟨h1, h2, h3, h4⟩ := hPred o ho
    simp only [ho]
    rw [careTargets_contains_eq v o es', careTargets_contains_eq v o es, h1, h2, h3, h4]

-- ─────────────────────────────── Claim C5 ────────────────────────────────

/-- C5 (amended): the gate is idempotent on well-formed inputs: node ids
pairwise distinct, no dangling edges, every node id with the reserved "m-"
prefix a member node, and a viewer id that is either the id of a member
node or absent from the graph.  (Dangling edges can break idempotence, see
the counterexample.) -/
theorem C5_idempotent (g : FamilyGraph) (v : String)
    (Hu : g.nodes.Pairwise fun a b => a.id ≠ b.id)
    (H1 : ∀ e ∈ g.edges, (∃ n ∈ g.nodes, n.id = e.source) ∧ ∃ n ∈ g.nodes, n.id = e.target)
    (H2 : ∀ n ∈ g.nodes, strStartsWith n.id "m-" = true → isMemberNode n = true)
    (H3 : (∃ n ∈ g.nodes, n.id = v ∧ isMemberNode n = true) ∨ ∀ n ∈ g.nodes, n.id ≠ v) :
    applyVisibilityGate (applyVisibilityGate g v) v = applyVisibilityGate g v := by
  have hIds : ∀ x, (∃ m ∈ g.nodes, m.id = x ∧ isMemberNode m = true) →
      ((gateNodes g v).map FamilyNode.id).contains x = true := by
    rintro x ⟨m, hm, hid, hmem⟩
    exact contains_iff_mem.mpr (List.mem_map.mpr ⟨m, member_mem_gateNodes hm hmem, hid⟩)
  have hvCase : (∀ e ∈ g.edges, e.source ≠ v ∧ e.target ≠ v) ∨
      ((gateNodes g v).map FamilyNode.id).contains v = true := by
    rcases H3 with ⟨m, hm, hid, hmem⟩ | hno
    · exact Or.inr (hIds v ⟨m, hm, hid, hmem⟩)
    · refine Or.inl fun e he => ⟨?_, ?_⟩
      · intro h1
        rcases (H1 e he).1 with ⟨m, hm, hid⟩
        exact hno m hm (hid.trans h1)
      · intro h1
        rcases (H1 e he).2 with ⟨m, hm, hid⟩
        exact hno m hm (hid.trans h1)
  have hOwnerIds : ∀ (x o : String), findOwner x g.edges = some o →
      ((gateNodes g v).map FamilyNode.id).contains o = true := by
    intro x o ho
    obtain ⟨hpre, e, he, hor⟩ := findOwner_spec x g.edges o ho
    apply hIds
    rcases hor with h1 | h1
    · rcases (H1 e he).1 with ⟨m, hm, hid⟩
      refine ⟨m, hm, hid.trans h1.symm, H2 m hm ?_⟩
      rw [hid, ← h1]
      exact hpre
    · rcases (H1 e he).2 with ⟨m, hm, hid⟩
      refine ⟨m, hm, hid.trans h1.symm, H2 m hm ?_⟩
      rw [hid, ← h1]
      exact hpre
  have hrole : viewerRoleOf (applyVisibilityGate g v) v = viewerRoleOf g v := by
    rcases H3 with ⟨m, hm, hid, hmem⟩ | hno
    · have h1 : viewerRoleOf g v = nodeRole m := by
        unfold viewerRoleOf
        rw [find?_eq_of_unique Hu hm hid]
        rfl
      have hm1 : m ∈ gateNodes g v := member_mem_gateNodes hm hmem
      have hu1 : (gateNodes g v).Pairwise fun a b => a.id ≠ b.id :=
        (Hu.filter _).filter _
      have h2 : viewerRoleOf (applyVisibilityGate g v) v = nodeRole m := by
        unfold viewerRoleOf
        rw [gate_nodes_def, find?_eq_of_unique hu1 hm1 hid]
        rfl
      rw [h1, h2]
    · have hsub : ∀ n ∈ gateNodes g v, n.id ≠ v := fun n hn =>
        hno n (((List.filter_sublist _).trans (List.filter_sublist _)).subset hn)
      have h2 : viewerRoleOf (applyVisibilityGate g v) v = none :=
        viewerRoleOf_eq_none (by rw [gate_nodes_def]; exact hsub)
      rw [h2, viewerRoleOf_eq_none hno]
  have hOwn : ∀ n ∈ gateNodes g v,
      findOwner n.id (gateEdges g v) = findOwner n.id g.edges := by
    intro n hn
    have hnId : ((gateNodes g v).map FamilyNode.id).contains n.id = true :=
      contains_iff_mem.mpr (List.mem_map.mpr ⟨n, hn, rfl⟩)
    unfold gateEdges
    apply findOwner_filter
    intro e he hrel
    rw [Bool.and_eq_true]
    rw [Bool.or_eq_true] at hrel
    rcases hrel with h1 | h1 <;> rw [Bool.and_eq_true] at h1
    · obtain ⟨ht, hs⟩ := h1
      constructor
      · rcases (H1 e he).1 with ⟨m, hm, hid⟩
        exact hIds _ ⟨m, hm, hid, H2 m hm (by rw [hid]; exact hs)⟩
      · rw [beq_iff_eq.mp ht]
        exact hnId
    · obtain ⟨hs, ht⟩ := h1
      constructor
      · rw [beq_iff_eq.mp hs]
        exact hnId
      · rcases (H1 e he).2 with ⟨m, hm, hid⟩
        exact hIds _ ⟨m, hm, hid, H2 m hm (by rw [hid]; exact ht)⟩
  have hPred : ∀ o, (((gateNodes g v).map FamilyNode.id).contains o = true) →
      isParentOf v o (gateEdges g v) = isParentOf v o g.edges ∧
      isGrandparentOf v o (gateEdges g v) = isGrandparentOf v o g.edges ∧
      isCaregiverOf v o (gateEdges g v) = isCaregiverOf v o g.edges ∧
      isParentOf o v (gateEdges g v) = isParentOf o v g.edges := by
    intro o hoIn
    have hcv : ∀ e ∈ g.edges, (e.source = v ∨ e.target = v) →
        ((gateNodes g v).map FamilyNode.id).contains v = true := by
      intro e he hor
      rcases hvCase with hno | hin
      · exfalso
        rcases hor with h1 | h1
        · exact (hno e he).1 h1
        · exact (hno e he).2 h1
      · exact hin
    refine ⟨?_, ?_, ?_, ?_⟩
    · unfold isParentOf gateEdges
      apply any_filter_eq
      intro e he hp
      rw [Bool.and_eq_true, Bool.and_eq_true] at hp
      obtain ⟨⟨-, hsv⟩, hto⟩ := hp
      rw [Bool.and_eq_true]
      have hsv' := beq_iff_eq.mp hsv
      constructor
      · rw [hsv']
        exact hcv e he (Or.inl hsv')
      · rw [beq_iff_eq.mp hto]
        exact hoIn
    · unfold isGrandparentOf gateEdges
      apply any_filter_eq
      intro e he hp
      rw [Bool.and_eq_true, Bool.and_eq_true] at hp
      obtain ⟨⟨-, hsv⟩, hto⟩ := hp
      rw [Bool.and_eq_true]
      have hsv' := beq_iff_eq.mp hsv
      constructor
      · rw [hsv']
        exact hcv e he (Or.inl hsv')
      · rw [beq_iff_eq.mp hto]
        exact hoIn
    · unfold isCaregiverOf gateEdges
      apply any_filter_eq
      intro e he hp
      rw [Bool.and_eq_true, Bool.and_eq_true] at hp
      obtain ⟨⟨-, hsv⟩, hto⟩ := hp
      rw [Bool.and_eq_true]
      have hsv' := beq_iff_eq.mp hsv
      constructor
      · rw [hsv']
        exact hcv e he (Or.inl hsv')
      · rw [beq_iff_eq.mp hto]
        exact hoIn
    · unfold isParentOf gateEdges
      apply any_filter_eq
      intro e he hp
      rw [Bool.and_eq_true, Bool.and_eq_true] at hp
      obtain ⟨⟨-, hso⟩, htv⟩ := hp
      rw [Bool.and_eq_true]
      have htv' := beq_iff_eq.mp htv
      constructor
      · rw [beq_iff_eq.mp hso]
        exact hoIn
      · rw [htv']
        exact hcv e he (Or.inr htv')
  have hN : gateNodes (applyVisibilityGate g v) v = gateNodes g v := by
    have e1 : gateNodes (applyVisibilityGate g v) v
        = ((gateNodes g v).filter
            (nodeVisible (viewerRoleOf g v) v (gateEdges g v))).filter
            (fun node => !(viewerRoleOf g v == some Role.caregiver && isFinancialDoc node)) := by
      show ((gateNodes g v).filter
            (nodeVisible (viewerRoleOf (applyVisibilityGate g v) v) v (gateEdges g v))).filter
            (fun node => !(viewerRoleOf (applyVisibilityGate g v) v == some Role.caregiver &&
              isFinancialDoc node))
          = _
      rw [hrole]
    rw [e1, List.filter_filter]
    apply List.filter_eq_self.mpr
    intro n hn
    rcases mem_gateNodes.mp hn with ⟨hmemg, hvis, hpost⟩
    rw [Bool.and_eq_true]
    constructor
    · rw [hpost]
      rfl
    · rw [nodeVisible_env_eq (viewerRoleOf g v) v g.edges (gateEdges g v) n (hOwn n hn)
        (fun o ho => hPred o (hOwnerIds n.id o ho))]
      exact hvis
  have hE : gateEdges (applyVisibilityGate g v) v = gateEdges g v := by
    have e1 : gateEdges (applyVisibilityGate g v) v
        = (gateEdges g v).filter (fun e =>
            ((gateNodes (applyVisibilityGate g v) v).map FamilyNode.id).contains e.source &&
            ((gateNodes (applyVisibilityGate g v) v).map FamilyNode.id).contains e.target) := rfl
    rw [e1, hN]
    apply List.filter_eq_self.mpr
    intro e he
    have he' : e ∈ g.edges.filter (fun e =>
        ((gateNodes g v).map FamilyNode.id).contains e.source &&
        ((gateNodes g v).map FamilyNode.id).contains e.target) := he
    exact (List.mem_filter.mp he').2
  rw [gate_eq (applyVisibilityGate g v) v, hN, hE, ← gate_eq g v]

/-- Witness for C5 (amended): the well-formed graph `G4` with member viewer
"m-dad" satisfies every hypothesis, and the gate is idempotent there. -/
theorem C5_witness :
    (G4.nodes.Pairwise fun a b => a.id ≠ b.id) ∧
      applyVisibilityGate (applyVisibilityGate G4 "m-dad") "m-dad" =
        applyVisibilityGate G4 "m-dad" :=
  ⟨by decide, C5_idempotent G4 "m-dad" (by decide) (by decide) (by decide) (by decide)⟩

